import Mathlib

/-!
Shallow embedding of the EF100 NIC control-plane core
(driver/linux_net/drivers/net/ethernet/sfc/ef100_nic.c) and proofs of the
spec claims about it: the streaming TLV design-parameter decoder, the
design-parameter interpreter, the event-queue dispatch loop, MCDI reboot
detection, the datapath capability query, and the reset orchestration.

Machine integers are modelled as Nat with explicit truncation (% 2^w)
exactly where the C performs a narrowing store or wrapping arithmetic.
Error codes follow Linux errno conventions: -EIO = -5, -EOPNOTSUPP = -95,
-ENETDOWN = -100.
-/

namespace Ef100

/-! ## TLV design-parameter decoder (ef100_tlv_feed) -/

/-- States of `enum ef100_tlv_state_machine`. -/
inductive TlvSM
  | TYPE
  | TYPE_CONT
  | LENGTH
  | VALUE
deriving DecidableEq, Repr

/-- Mirror of `struct ef100_tlv_state`: `value` is a u64, `value_offset` a
u32, `type` a u16, `len` a u8. -/
structure TlvState where
  state : TlvSM
  value : Nat
  value_offset : Nat
  ty : Nat
  len : Nat
deriving DecidableEq, Repr

/-- Zero-initialised reader, as in `struct ef100_tlv_state reader = {}`
(enum value TYPE is 0). -/
def tlvInit : TlvState := ⟨TlvSM.TYPE, 0, 0, 0, 0⟩

/-- Translation of `ef100_tlv_feed`.  The C function receives the byte as a
`u8` parameter and returns an `int` rc while mutating the reader; we return
the rc together with the updated reader.  The only failure is
-EOPNOTSUPP (-95) for a declared length wider than the u64 accumulator. -/
def ef100_tlv_feed (s : TlvState) (byteIn : Nat) : Int × TlvState :=
  let byte := byteIn % 2 ^ 8
  match s.state with
  | TlvSM.TYPE =>
      (0, { s with ty := byte &&& 0x7f,
                   state := if byte &&& 0x80 ≠ 0 then TlvSM.TYPE_CONT
                            else TlvSM.LENGTH,
                   value := 0,
                   value_offset := 0 })
  | TlvSM.TYPE_CONT =>
      (0, { s with ty := (s.ty ||| (byte <<< 7)) % 2 ^ 16,
                   state := TlvSM.LENGTH })
  | TlvSM.LENGTH =>
      let s1 := { s with len := byte }
      if s1.len > 8 then (-95, s1)
      else (0, { s1 with state := if s1.len ≠ 0 then TlvSM.VALUE
                                  else TlvSM.TYPE })
  | TlvSM.VALUE =>
      let s1 := { s with value := (s.value ||| (byte <<< (s.value_offset * 8))) % 2 ^ 64,
                         value_offset := s.value_offset + 1 }
      (0, if s1.value_offset ≥ s1.len then { s1 with state := TlvSM.TYPE } else s1)

/-- Feed a byte sequence, collecting the (type, value) pair of every
completed triple — a triple is complete exactly when a feed leaves the
reader back in the TYPE state, which is the completion test the caller
`ef100_check_design_params` uses.  `none` on a decode error. -/
def tlvRunAux : TlvState → List Nat → Option (TlvState × List (Nat × Nat))
  | s, [] => some (s, [])
  | s, b :: bs =>
    let r := ef100_tlv_feed s b
    if r.1 ≠ 0 then none
    else
      match tlvRunAux r.2 bs with
      | none => none
      | some (sf, out) =>
          some (sf, (if r.2.state = TlvSM.TYPE then [(r.2.ty, r.2.value)] else []) ++ out)

/-- The reader states in which successive bytes of a feed are consumed. -/
def tlvPreStates : TlvState → List Nat → List TlvSM
  | _, [] => []
  | s, b :: bs => s.state :: tlvPreStates (ef100_tlv_feed s b).2 bs

/-! Encoding of well-formed TLV streams, used to state round-trip
correctness. -/

/-- One source triple: a type code and the little-endian value bytes. -/
structure TlvTriple where
  t : Nat
  vbytes : List Nat
deriving Repr

/-- Encoding of the type field: one byte if it fits in 7 bits, else a
continuation byte pair (low 7 bits with bit 7 set, then the high bits). -/
def encodeTy (t : Nat) : List Nat :=
  if t < 0x80 then [t] else [(t &&& 0x7f) ||| 0x80, t >>> 7]

/-- Wire encoding of one triple: type bytes, length byte, value bytes. -/
def encodeTriple (tr : TlvTriple) : List Nat :=
  encodeTy tr.t ++ [tr.vbytes.length] ++ tr.vbytes

/-- Wire encoding of a triple sequence. -/
def encodeTlvList (l : List TlvTriple) : List Nat :=
  l.foldr (fun tr acc => encodeTriple tr ++ acc) []

/-- Little-endian value of a byte list (first byte least significant). -/
def leVal (vb : List Nat) : Nat := vb.foldr (fun b acc => b + 2 ^ 8 * acc) 0

/-- Well-formedness of a triple: the type fits in 15 bits (7 + 8 of the
continuation byte), the length fits the u64 accumulator, bytes are bytes. -/
def TlvWF (tr : TlvTriple) : Prop :=
  tr.t < 2 ^ 15 ∧ tr.vbytes.length ≤ 8 ∧ ∀ b ∈ tr.vbytes, b < 2 ^ 8

/-! ## Design-parameter interpreter (ef100_process_design_param)

The `ESE_EF100_DP_GZ_*` type codes, `EFX_MIN_DMAQ_SIZE`, `GSO_MAX_SIZE` and
`ESE_EF100_DP_GZ_VI_STRIDES_DEFAULT` come from headers outside this source
file, so the interpreter is parameterised over their numeric values; the
switch requires only that the codes are pairwise distinct, which the
distinctness hypothesis `DpDistinct` records. -/

/-- Numeric environment for the design-parameter switch: one field per
`ESE_EF100_DP_GZ_*` case label plus the external limit constants. -/
structure DpEnv where
  PAD : Nat
  PARTIAL_TSTAMP_SUB_NANO_BITS : Nat
  EVQ_UNSOL_CREDIT_SEQ_BITS : Nat
  NMMU_GROUP_SIZE : Nat
  RX_L4_CSUM_PROTOCOLS : Nat
  TSO_MAX_HDR_LEN : Nat
  TSO_MAX_HDR_NUM_SEGS : Nat
  RXQ_SIZE_GRANULARITY : Nat
  TXQ_SIZE_GRANULARITY : Nat
  TSO_MAX_PAYLOAD_LEN : Nat
  TSO_MAX_PAYLOAD_NUM_SEGS : Nat
  TSO_MAX_NUM_FRAMES : Nat
  COMPAT : Nat
  MEM2MEM_MAX_LEN : Nat
  EVQ_TIMER_TICK_NANOS : Nat
  NMMU_PAGE_SIZES : Nat
  VI_STRIDES : Nat
  MIN_DMAQ_SIZE : Nat
  GSO_MAX_SIZE : Nat
  VI_STRIDES_DEFAULT : Nat
deriving Repr

/-- The switch's case labels, in source order. -/
def DpEnv.labels (env : DpEnv) : List Nat :=
  [env.PAD, env.PARTIAL_TSTAMP_SUB_NANO_BITS, env.EVQ_UNSOL_CREDIT_SEQ_BITS,
   env.NMMU_GROUP_SIZE, env.RX_L4_CSUM_PROTOCOLS, env.TSO_MAX_HDR_LEN,
   env.TSO_MAX_HDR_NUM_SEGS, env.RXQ_SIZE_GRANULARITY, env.TXQ_SIZE_GRANULARITY,
   env.TSO_MAX_PAYLOAD_LEN, env.TSO_MAX_PAYLOAD_NUM_SEGS, env.TSO_MAX_NUM_FRAMES,
   env.COMPAT, env.MEM2MEM_MAX_LEN, env.EVQ_TIMER_TICK_NANOS,
   env.NMMU_PAGE_SIZES, env.VI_STRIDES]

/-- Case labels of a C switch are necessarily pairwise distinct. -/
def DpDistinct (env : DpEnv) : Prop := env.labels.Nodup

/-- The capability/limit fields of `struct ef100_nic_data` (and the net
device) written by the interpreter. -/
structure DpNicData where
  tso_max_hdr_len : Nat
  tso_max_payload_len : Nat
  tso_max_payload_num_segs : Nat
  tso_max_frames : Nat
  gso_max_size : Nat
  gso_max_segs : Nat
deriving DecidableEq, Repr

/-- Translation of `ef100_process_design_param`: dispatch on the completed
triple's type; clamp-and-store for the limit parameters, -EOPNOTSUPP (-95)
for the hard incompatibilities, success for everything unrecognised.  The C
switch becomes an if-chain over the (distinct) case labels; the u32 cast in
the granularity divisibility test is kept as `% 2 ^ 32`. -/
def ef100_process_design_param (env : DpEnv) (nic : DpNicData)
    (reader : TlvState) : DpNicData × Int :=
  if reader.ty = env.PAD then (nic, 0)
  else if reader.ty = env.PARTIAL_TSTAMP_SUB_NANO_BITS then (nic, 0)
  else if reader.ty = env.EVQ_UNSOL_CREDIT_SEQ_BITS then (nic, 0)
  else if reader.ty = env.NMMU_GROUP_SIZE then (nic, 0)
  else if reader.ty = env.RX_L4_CSUM_PROTOCOLS then (nic, 0)
  else if reader.ty = env.TSO_MAX_HDR_LEN then
    ({ nic with tso_max_hdr_len := min reader.value 0xffff }, 0)
  else if reader.ty = env.TSO_MAX_HDR_NUM_SEGS then
    if reader.value = 0 then (nic, -95) else (nic, 0)
  else if reader.ty = env.RXQ_SIZE_GRANULARITY ∨
          reader.ty = env.TXQ_SIZE_GRANULARITY then
    if reader.value = 0 ∨ reader.value > env.MIN_DMAQ_SIZE ∨
       env.MIN_DMAQ_SIZE % (reader.value % 2 ^ 32) ≠ 0 then (nic, -95)
    else (nic, 0)
  else if reader.ty = env.TSO_MAX_PAYLOAD_LEN then
    let v := min reader.value env.GSO_MAX_SIZE
    ({ nic with tso_max_payload_len := v, gso_max_size := v }, 0)
  else if reader.ty = env.TSO_MAX_PAYLOAD_NUM_SEGS then
    let v := min reader.value 0xffff
    ({ nic with tso_max_payload_num_segs := v, gso_max_segs := v }, 0)
  else if reader.ty = env.TSO_MAX_NUM_FRAMES then
    ({ nic with tso_max_frames := min reader.value 0xffff }, 0)
  else if reader.ty = env.COMPAT then
    if reader.value ≠ 0 then (nic, -95) else (nic, 0)
  else if reader.ty = env.MEM2MEM_MAX_LEN then (nic, 0)
  else if reader.ty = env.EVQ_TIMER_TICK_NANOS then (nic, 0)
  else if reader.ty = env.NMMU_PAGE_SIZES then (nic, 0)
  else if reader.ty = env.VI_STRIDES then (nic, 0)
  else (nic, 0)

/-! ## Design-parameter scan (ef100_check_design_params) -/

/-- Body of the scan over a byte sequence: feed each byte; when a feed
completes a triple (reader back in TYPE), interpret it; the first nonzero
rc aborts (the C `goto out`). -/
def checkBytes (env : DpEnv) : TlvState → DpNicData → List Nat →
    Int × TlvState × DpNicData
  | st, nic, [] => (0, st, nic)
  | st, nic, b :: bs =>
    let r := ef100_tlv_feed st b
    if r.1 ≠ 0 then (r.1, r.2, nic)
    else if r.2.state = TlvSM.TYPE then
      let p := ef100_process_design_param env nic r.2
      if p.2 ≠ 0 then (p.2, r.2, p.1)
      else checkBytes env r.2 p.1 bs
    else checkBytes env r.2 nic bs

/-- The four bytes of one dword register read, in the order the C inner
loop feeds them: `(u8)data` then `data >>= 8`, four times. -/
def dwordBytes (d : Nat) : List Nat :=
  [d % 2 ^ 8, (d >>> 8) % 2 ^ 8, (d >>> 16) % 2 ^ 8, (d >>> 24) % 2 ^ 8]

/-- Outer register loop of `ef100_check_design_params`: one dword per
iteration, four bytes fed from it. -/
def checkDwords (env : DpEnv) : TlvState → DpNicData → List Nat →
    Int × TlvState × DpNicData
  | st, nic, [] => (0, st, nic)
  | st, nic, d :: ds =>
    let r := checkBytes env st nic (dwordBytes d)
    if r.1 ≠ 0 then r
    else checkDwords env r.2.1 r.2.2 ds

/-- The byte stream carried by a dword sequence, in feed order. -/
def bytesOfDwords (ds : List Nat) : List Nat :=
  ds.foldr (fun d acc => dwordBytes d ++ acc) []

/-- Translation of `ef100_check_design_params` for a stream whose declared
total length is `4 * dwords.length` (the register window is read one dword
at a time, so a declared length that is a multiple of 4 feeds exactly the
bytes of these dwords): fresh zero reader, scan, return the final rc. -/
def ef100_check_design_params (env : DpEnv) (nic : DpNicData)
    (dwords : List Nat) : Int :=
  (checkDwords env tlvInit nic dwords).1

/-! ## Event-queue dispatch (ef100_ev_process, ef100_ev_mcdi)

Ring entries are 8-byte words whose layout (`ESF_GZ_EV_RXPKTS_PHASE`,
`ESF_GZ_E_TYPE`, the `ESE_GZ_EF100_EV_*` type codes) lives in headers
outside this source file; per the spec an entry carries a phase bit and a
type tag, so an entry is modelled as the pair of its two extracted fields
and the type codes as an inductive. -/

/-- Event type tag of a ring entry (`ESE_GZ_EF100_EV_*`); `other` covers
every unrecognised code (the switch's default arm). -/
inductive EvType
  | RX_PKTS
  | MCDI
  | TX_COMPLETION
  | DRIVER
  | other (code : Nat)
deriving DecidableEq, Repr

/-- One ring entry as seen by the dispatcher: its phase bit and type tag. -/
structure EvEntry where
  phase : Bool
  ty : EvType
deriving DecidableEq, Repr

/-- The per-channel dispatcher state: `enabled`, the u32 event-queue read
pointer, the ring mask, and this channel's bit of `nic_data->evq_phases`. -/
structure EvChannel where
  enabled : Bool
  eventq_read_ptr : Nat
  eventq_mask : Nat
  evq_phase : Bool
deriving DecidableEq, Repr

/-- Translation of `ef100_ev_mcdi`: the external
`efx_mcdi_process_event`/`efx_mcdi_port_process_event_common` pair is an
oracle reporting the rc it wrote for this event at this quota; the spent
count returned is that rc if positive, 1 if it signalled an error, else
0. -/
def ef100_ev_mcdi (mcdiRc : EvEntry → Int → Int) (e : EvEntry)
    (quota : Int) : Int :=
  let rc := mcdiRc e quota
  if 0 < rc then rc else if rc < 0 then 1 else 0

/-- The `while (spent < quota)` loop of `ef100_ev_process`, with explicit
fuel: `none` means the fuel ran out before the loop exited, `some` is the
genuine loop result.  State per iteration: spent, read pointer (u32, hence
the `% 2 ^ 32` on increment), local expected phase, and an iteration
counter recording how many ring entries were dispatched (instrumentation
only - it influences nothing).  `ring` maps a masked index to the entry
there; `efx_event` applies the mask. -/
def evLoop (ring : Nat → EvEntry) (mcdiRc : EvEntry → Int → Int)
    (mask : Nat) (quota : Int) :
    Nat → Int → Nat → Bool → Nat → Option (Int × Nat × Bool × Nat)
  | 0, _, _, _, _ => none
  | fuel + 1, spent, read_ptr, phase, consumed =>
    if spent < quota then
      let e := ring (read_ptr &&& mask)
      if e.phase ≠ phase then some (spent, read_ptr, phase, consumed)
      else
        let spent' :=
          match e.ty with
          | EvType.RX_PKTS => spent + 1
          | EvType.MCDI => spent + ef100_ev_mcdi mcdiRc e (quota - spent)
          | EvType.TX_COMPLETION => spent
          | EvType.DRIVER => spent
          | EvType.other _ => spent
        let read_ptr' := (read_ptr + 1) % 2 ^ 32
        let phase' := if read_ptr' &&& mask == 0 then !phase else phase
        evLoop ring mcdiRc mask quota fuel spent' read_ptr' phase' (consumed + 1)
    else some (spent, read_ptr, phase, consumed)

/-- Translation of `ef100_ev_process` (non-busy-poll build): early out for
a disabled channel, run the loop from the stored read pointer and phase,
then commit the read pointer and - via `change_bit`, i.e. a toggle guarded
by inequality - the phase bit.  Returns the spent count, the updated
channel, and the number of entries dispatched. -/
def ef100_ev_process (ring : Nat → EvEntry) (mcdiRc : EvEntry → Int → Int)
    (ch : EvChannel) (quota : Int) (fuel : Nat) :
    Option (Int × EvChannel × Nat) :=
  if !ch.enabled then some (0, ch, 0)
  else
    match evLoop ring mcdiRc ch.eventq_mask quota fuel
        0 ch.eventq_read_ptr ch.evq_phase 0 with
    | none => none
    | some (spent, read_ptr, phase, consumed) =>
      some (spent,
            { ch with eventq_read_ptr := read_ptr,
                      evq_phase := if phase ≠ ch.evq_phase then !ch.evq_phase
                                   else ch.evq_phase },
            consumed)

/-- The expected phase after `j` entries have been dispatched from read
pointer `p0` with starting phase `ph0`: the loop toggles its local phase
whenever the incremented masked pointer wraps to 0. -/
def expPhase (mask p0 : Nat) (ph0 : Bool) : Nat → Bool
  | 0 => ph0
  | j + 1 =>
    let ph := expPhase mask p0 ph0 j
    if ((p0 + (j + 1)) % 2 ^ 32) &&& mask == 0 then !ph else ph

/-! ## MCDI reboot detection (ef100_get_warm_boot_count,
ef100_mcdi_poll_reboot) -/

/-- The state these two functions touch: the `STATE_DISABLED` marker of
`efx->state` and `nic_data->warm_boot_count` (u32). -/
structure McdiSt where
  efx_disabled : Bool
  warm_boot_count : Nat
deriving DecidableEq, Repr

/-- Translation of `ef100_get_warm_boot_count`; `reg` is the u32 read of
`ER_GZ_MC_SFT_STATUS` (truncated on entry as any 32-bit register read is).
All-ones: hardware unavailable, device disabled, -ENETDOWN (-100).  Magic
0xb007 in the upper 16 bits: return the lower 16 bits (the boot counter).
Otherwise -EIO (-5). -/
def ef100_get_warm_boot_count (st : McdiSt) (regIn : Nat) : McdiSt × Int :=
  let reg := regIn % 2 ^ 32
  if reg = 0xffffffff then ({ st with efx_disabled := true }, -100)
  else if reg >>> 16 = 0xb007 then (st, ((reg % 2 ^ 16 : Nat) : Int))
  else (st, -5)

/-- Translation of `ef100_mcdi_poll_reboot`: a negative read is reported as
0 (nothing to report until the counter can be read and stored); an
unchanged counter is 0; a changed counter is stored and reported as
-EIO (the rebooted marker), hence at most once per change. -/
def ef100_mcdi_poll_reboot (st : McdiSt) (regIn : Nat) : McdiSt × Int :=
  let r := ef100_get_warm_boot_count st regIn
  if r.2 < 0 then (r.1, 0)
  else if r.2 = (r.1.warm_boot_count : Int) then (r.1, 0)
  else ({ r.1 with warm_boot_count := r.2.toNat }, -5)

/-! ## Datapath capability query (efx_ef100_init_datapath_caps)

The MCDI RPC, the MCDI accessor macros and
`efx_mcdi_window_mode_to_stride` are external; the environment below
carries the RPC outcome and the values those externals produce.
`MC_CMD_GET_CAPABILITIES_V4_OUT_LEN` is a header constant, kept as a
parameter. -/

/-- Outcome of the capability RPC and of the external helpers. -/
structure CapsEnv where
  rpc_rc : Int
  outlen : Nat
  flags1 : Nat
  flags2 : Nat
  vi_window_mode : Nat
  mac_stats_num : Nat
  stride_rc : Int
  tso_v3 : Bool
deriving DecidableEq, Repr

/-- The capability state this function writes. -/
structure CapsState where
  datapath_caps : Nat
  datapath_caps2 : Nat
  num_mac_stats : Nat
  tso_feature_added : Bool
deriving DecidableEq, Repr

/-- Translation of `efx_ef100_init_datapath_caps`: RPC failure propagates;
a payload shorter than the protocol minimum is -EIO before any state is
written; then the two caps words are stored, the window mode translated
(failure propagates), the TSO feature flag added if the capability bit is
set, and the MAC-stat count stored. -/
def efx_ef100_init_datapath_caps (v4_out_len : Nat) (env : CapsEnv)
    (st : CapsState) : CapsState × Int :=
  if env.rpc_rc ≠ 0 then (st, env.rpc_rc)
  else if env.outlen < v4_out_len then (st, -5)
  else
    let st1 := { st with datapath_caps := env.flags1,
                         datapath_caps2 := env.flags2 }
    if env.stride_rc ≠ 0 then (st1, env.stride_rc)
    else
      let st2 := if env.tso_v3 then { st1 with tso_feature_added := true }
                 else st1
      ({ st2 with num_mac_stats := env.mac_stats_num }, 0)

/-! ## Reset orchestration (ef100_reset, ef100_filter_table_down/up)

The externally visible steps (dev_close, the MCDI filter calls, the
firmware reset, re-attach, dev_open) are recorded in an action trace in
program order; their return codes come from an oracle record. -/

/-- Externally observable steps of the reset flow, in the order the code
performs them. -/
inductive ResetAct
  | DevClose
  | DelVlan0
  | DelVlanUnspec
  | McdiFilterDown
  | McdiReset
  | SetLastReset
  | AttachReps
  | DevAttach
  | ClearPending
  | AddVlanUnspec
  | AddVlan0
  | DevOpen
deriving DecidableEq, Repr

/-- Reset types reaching `ef100_reset` (everything else falls into the
final arm). -/
inductive RstTy
  | TX_WATCHDOG
  | ALL
  | otherTy
deriving DecidableEq, Repr

/-- Return codes of the external calls made during a reset. -/
structure RstEnv where
  has_attach_reps : Bool
  rcMcdiReset : Int
  rcAddVlanUnspec : Int
  rcAddVlan0 : Int
  rcOpen : Int
deriving DecidableEq, Repr

/-- The one piece of driver state the filter helpers guard on. -/
structure RstSt where
  filters_up : Bool
deriving DecidableEq, Repr

/-- Translation of `ef100_filter_table_down`: a no-op unless the filters
are up; otherwise the two vlan deletions and the MCDI table down, then the
flag is cleared. -/
def ef100_filter_table_down (st : RstSt) : RstSt × List ResetAct :=
  if !st.filters_up then (st, [])
  else (⟨false⟩, [ResetAct.DelVlan0, ResetAct.DelVlanUnspec,
                  ResetAct.McdiFilterDown])

/-- Translation of `ef100_filter_table_up`: a no-op if already up; the
first vlan add failing tears the table back down and propagates; the
second failing deletes the first vlan, tears down and propagates;
`filters_up` is set exactly on success (the C `filters_up = !rc`). -/
def ef100_filter_table_up (env : RstEnv) (st : RstSt) :
    RstSt × List ResetAct × Int :=
  if st.filters_up then (st, [], 0)
  else if env.rcAddVlanUnspec ≠ 0 then
    (st, [ResetAct.AddVlanUnspec, ResetAct.McdiFilterDown],
     env.rcAddVlanUnspec)
  else if env.rcAddVlan0 ≠ 0 then
    (⟨false⟩, [ResetAct.AddVlanUnspec, ResetAct.AddVlan0,
               ResetAct.DelVlanUnspec, ResetAct.McdiFilterDown],
     env.rcAddVlan0)
  else (⟨true⟩, [ResetAct.AddVlanUnspec, ResetAct.AddVlan0], 0)

/-- Translation of `ef100_reset`: close the device; for TX_WATCHDOG
re-attach and reopen without touching filters; for RESET_TYPE_ALL tear the
filter table down, issue the firmware reset (failure returns immediately),
record the reset time, re-attach, rebuild the filter table (failure
returns), reopen; any other type leaves the device closed and returns 1. -/
def ef100_reset (env : RstEnv) (st : RstSt) (reset_type : RstTy) :
    RstSt × List ResetAct × Int :=
  let t0 := [ResetAct.DevClose]
  match reset_type with
  | RstTy.TX_WATCHDOG =>
    (st, t0 ++ (if env.has_attach_reps then [ResetAct.AttachReps] else []) ++
         [ResetAct.DevAttach, ResetAct.ClearPending, ResetAct.DevOpen],
     env.rcOpen)
  | RstTy.ALL =>
    let d := ef100_filter_table_down st
    if env.rcMcdiReset ≠ 0 then
      (d.1, t0 ++ d.2 ++ [ResetAct.McdiReset], env.rcMcdiReset)
    else
      let t2 := [ResetAct.McdiReset, ResetAct.SetLastReset] ++
                (if env.has_attach_reps then [ResetAct.AttachReps] else []) ++
                [ResetAct.DevAttach]
      let u := ef100_filter_table_up env d.1
      if u.2.2 ≠ 0 then (u.1, t0 ++ d.2 ++ t2 ++ u.2.1, u.2.2)
      else (u.1, t0 ++ d.2 ++ t2 ++ u.2.1 ++ [ResetAct.DevOpen], env.rcOpen)
  | RstTy.otherTy => (st, t0, 1)

/-! ## Theorems -/

/-- C6: from any reader in the LENGTH state - whatever type bytes were
consumed to get there - a length byte exceeding 8 (the byte width of the
u64 value accumulator) makes `ef100_tlv_feed` return -EOPNOTSUPP. -/
theorem tlv_feed_len_over_accumulator (s : TlvState) (byte : Nat)
    (hs : s.state = TlvSM.LENGTH) (hb : byte < 2 ^ 8) (h8 : 8 < byte) :
    (ef100_tlv_feed s byte).1 = -95 := by
  simp only [ef100_tlv_feed, hs, Nat.mod_eq_of_lt hb]
  simp [h8]

/-- Witness for C6 at the state reached from TYPE by the byte 0x03 and the
length byte 9. -/
theorem tlv_feed_len_over_accumulator_witness :
    (ef100_tlv_feed ⟨TlvSM.LENGTH, 0, 0, 3, 0⟩ 9).1 = -95 :=
  tlv_feed_len_over_accumulator ⟨TlvSM.LENGTH, 0, 0, 3, 0⟩ 9 rfl
    (by norm_num) (by norm_num)

/-- C4: with a valid magic and an unchanged boot counter the poll reports
NoChange (0) and leaves the state alone; a changed counter is reported as
rebooted (-EIO) exactly once - the new counter is stored by the first call,
so a second call on the same register value reports NoChange. -/
theorem mcdi_poll_reboot_once_per_change :
    (∀ (st : McdiSt) (reg : Nat), reg % 2 ^ 32 ≠ 0xffffffff →
      (reg % 2 ^ 32) >>> 16 = 0xb007 →
      (reg % 2 ^ 32) % 2 ^ 16 = st.warm_boot_count →
      ef100_mcdi_poll_reboot st reg = (st, 0)) ∧
    (∀ (st : McdiSt) (reg : Nat), reg % 2 ^ 32 ≠ 0xffffffff →
      (reg % 2 ^ 32) >>> 16 = 0xb007 →
      (reg % 2 ^ 32) % 2 ^ 16 ≠ st.warm_boot_count →
      (ef100_mcdi_poll_reboot st reg).2 = -5 ∧
      (ef100_mcdi_poll_reboot st reg).1.warm_boot_count =
        (reg % 2 ^ 32) % 2 ^ 16 ∧
      ef100_mcdi_poll_reboot (ef100_mcdi_poll_reboot st reg).1 reg =
        ((ef100_mcdi_poll_reboot st reg).1, 0)) := by
  have hg : ∀ (st : McdiSt) (reg : Nat), reg % 2 ^ 32 ≠ 0xffffffff →
      (reg % 2 ^ 32) >>> 16 = 0xb007 →
      ef100_get_warm_boot_count st reg =
        (st, ((reg % 2 ^ 32 % 2 ^ 16 : Nat) : Int)) := by
    intro st reg h1 h2
    simp only [ef100_get_warm_boot_count]
    rw [if_neg h1, if_pos h2]
  have part1 : ∀ (st : McdiSt) (reg : Nat), reg % 2 ^ 32 ≠ 0xffffffff →
      (reg % 2 ^ 32) >>> 16 = 0xb007 →
      (reg % 2 ^ 32) % 2 ^ 16 = st.warm_boot_count →
      ef100_mcdi_poll_reboot st reg = (st, 0) := by
    intro st reg h1 h2 h3
    simp only [ef100_mcdi_poll_reboot, hg st reg h1 h2]
    split_ifs with ha hb
    · rfl
    · rfl
    · exact absurd h3 (by exact_mod_cast hb)
  refine ⟨part1, ?_⟩
  intro st reg h1 h2 h3
  have hstep : ef100_mcdi_poll_reboot st reg =
      (⟨st.efx_disabled, reg % 2 ^ 32 % 2 ^ 16⟩, -5) := by
    simp only [ef100_mcdi_poll_reboot, hg st reg h1 h2]
    split_ifs with ha hb
    · exact absurd ha (by omega)
    · exact absurd (by exact_mod_cast hb) h3
    · rfl
  refine ⟨by rw [hstep], by rw [hstep], ?_⟩
  rw [hstep]
  exact part1 ⟨st.efx_disabled, reg % 2 ^ 32 % 2 ^ 16⟩ reg h1 h2 rfl

/-- Witness for C4: counter 5 with magic status 0xb0070005 reads back
unchanged; a stored counter 3 sees the change reported exactly once. -/
theorem mcdi_poll_reboot_once_per_change_witness :
    ef100_mcdi_poll_reboot ⟨false, 5⟩ 0xb0070005 = (⟨false, 5⟩, 0) ∧
    (ef100_mcdi_poll_reboot ⟨false, 3⟩ 0xb0070005).2 = -5 ∧
    ef100_mcdi_poll_reboot (ef100_mcdi_poll_reboot ⟨false, 3⟩ 0xb0070005).1
        0xb0070005 =
      ((ef100_mcdi_poll_reboot ⟨false, 3⟩ 0xb0070005).1, 0) :=
  ⟨mcdi_poll_reboot_once_per_change.1 ⟨false, 5⟩ 0xb0070005 (by decide)
      (by decide) (by decide),
   (mcdi_poll_reboot_once_per_change.2 ⟨false, 3⟩ 0xb0070005 (by decide)
      (by decide) (by decide)).1,
   (mcdi_poll_reboot_once_per_change.2 ⟨false, 3⟩ 0xb0070005 (by decide)
      (by decide) (by decide)).2.2⟩

/-- C5 counterexample: status word 0 is not all-ones and lacks the 0xb007
magic, yet `ef100_mcdi_poll_reboot` (the detect_reboot operation) returns
0, i.e. NoChange - not a distinct hard-error result as the claim states. -/
theorem mcdi_poll_reboot_bad_magic_cex :
    ef100_mcdi_poll_reboot ⟨false, 0⟩ 0 = (⟨false, 0⟩, 0) := by decide

/-- C5 amended: on a status word that is not all-ones and lacks the magic,
the helper `ef100_get_warm_boot_count` does signal -EIO to its caller, but
`ef100_mcdi_poll_reboot` swallows the negative code and reports NoChange
(0). -/
theorem warm_boot_count_bad_magic_eio (st : McdiSt) (reg : Nat)
    (h1 : reg % 2 ^ 32 ≠ 0xffffffff) (h2 : (reg % 2 ^ 32) >>> 16 ≠ 0xb007) :
    (ef100_get_warm_boot_count st reg).2 = -5 ∧
    (ef100_mcdi_poll_reboot st reg).2 = 0 := by
  have hg : ef100_get_warm_boot_count st reg = (st, -5) := by
    simp only [ef100_get_warm_boot_count]
    rw [if_neg h1, if_neg h2]
  refine ⟨by rw [hg], ?_⟩
  simp only [ef100_mcdi_poll_reboot, hg]
  rw [if_pos (by norm_num : (-5 : Int) < 0)]

/-- Witness for the amended C5 at register value 0. -/
theorem warm_boot_count_bad_magic_eio_witness :
    (ef100_get_warm_boot_count ⟨false, 0⟩ 0).2 = -5 ∧
    (ef100_mcdi_poll_reboot ⟨false, 0⟩ 0).2 = 0 :=
  warm_boot_count_bad_magic_eio ⟨false, 0⟩ 0 (by decide) (by decide)

/-- C8: when the capability RPC succeeds but its payload is shorter than
the protocol-defined minimum, `efx_ef100_init_datapath_caps` returns -EIO
with the capability state exactly as it was - nothing is partially
applied. -/
theorem init_datapath_caps_short_payload (v4_out_len : Nat) (env : CapsEnv)
    (st : CapsState) (hrc : env.rpc_rc = 0) (hlen : env.outlen < v4_out_len) :
    efx_ef100_init_datapath_caps v4_out_len env st = (st, -5) := by
  simp [efx_ef100_init_datapath_caps, hrc, hlen]

/-- Witness for C8 with a 10-byte payload against a 78-byte minimum. -/
theorem init_datapath_caps_short_payload_witness :
    efx_ef100_init_datapath_caps 78 ⟨0, 10, 0, 0, 0, 0, 0, false⟩
        ⟨1, 2, 3, false⟩ =
      (⟨1, 2, 3, false⟩, -5) :=
  init_datapath_caps_short_payload 78 ⟨0, 10, 0, 0, 0, 0, 0, false⟩
    ⟨1, 2, 3, false⟩ rfl (by norm_num)

/-- C9: a full reset whose firmware-level reset command fails returns that
error; the observable trace is exactly close, filter-table tear-down,
failed firmware reset - the filter table stays down and neither the
re-attach, the table rebuild nor the reopen is reached. -/
theorem reset_full_fw_fail_aborts (env : RstEnv) (st : RstSt)
    (hrc : env.rcMcdiReset ≠ 0) :
    (ef100_reset env st RstTy.ALL).2.2 = env.rcMcdiReset ∧
    (ef100_reset env st RstTy.ALL).1.filters_up = false ∧
    (ef100_reset env st RstTy.ALL).2.1 =
      [ResetAct.DevClose] ++ (ef100_filter_table_down st).2 ++
        [ResetAct.McdiReset] ∧
    ResetAct.DevAttach ∉ (ef100_reset env st RstTy.ALL).2.1 ∧
    ResetAct.AddVlanUnspec ∉ (ef100_reset env st RstTy.ALL).2.1 ∧
    ResetAct.AddVlan0 ∉ (ef100_reset env st RstTy.ALL).2.1 ∧
    ResetAct.DevOpen ∉ (ef100_reset env st RstTy.ALL).2.1 := by
  obtain ⟨fu⟩ := st
  cases fu <;>
    simp [ef100_reset, ef100_filter_table_down, hrc]

/-- Witness for C9: firmware reset failing with -5 while the filters are
up. -/
theorem reset_full_fw_fail_aborts_witness :
    (ef100_reset ⟨true, -5, 0, 0, 0⟩ ⟨true⟩ RstTy.ALL).2.2 = -5 ∧
    (ef100_reset ⟨true, -5, 0, 0, 0⟩ ⟨true⟩ RstTy.ALL).1.filters_up = false ∧
    ResetAct.DevOpen ∉ (ef100_reset ⟨true, -5, 0, 0, 0⟩ ⟨true⟩ RstTy.ALL).2.1 := by
  refine ⟨(reset_full_fw_fail_aborts ⟨true, -5, 0, 0, 0⟩ ⟨true⟩ (by norm_num)).1,
         (reset_full_fw_fail_aborts ⟨true, -5, 0, 0, 0⟩ ⟨true⟩ (by norm_num)).2.1,
         (reset_full_fw_fail_aborts ⟨true, -5, 0, 0, 0⟩ ⟨true⟩ (by norm_num)).2.2.2.2.2.2⟩

set_option maxHeartbeats 4000000 in
/-- C7: the design-parameter interpreter returns -EOPNOTSUPP exactly for
the hard incompatibilities - a nonzero COMPAT value, a zero
TSO_MAX_HDR_NUM_SEGS value, or an RXQ/TXQ size granularity that is zero,
exceeds the minimum queue size, or does not divide it - and returns 0 for
every type outside the recognised label set, so unknown design parameters
are never fatal. -/
theorem process_design_param_unsupported_iff (env : DpEnv) (nic : DpNicData)
    (reader : TlvState) (hd : DpDistinct env) :
    ((ef100_process_design_param env nic reader).2 = -95 ↔
      (reader.ty = env.COMPAT ∧ reader.value ≠ 0) ∨
      (reader.ty = env.TSO_MAX_HDR_NUM_SEGS ∧ reader.value = 0) ∨
      ((reader.ty = env.RXQ_SIZE_GRANULARITY ∨
        reader.ty = env.TXQ_SIZE_GRANULARITY) ∧
        (reader.value = 0 ∨ env.MIN_DMAQ_SIZE < reader.value ∨
         env.MIN_DMAQ_SIZE % (reader.value % 2 ^ 32) ≠ 0))) ∧
    (reader.ty ∉ env.labels →
      (ef100_process_design_param env nic reader).2 = 0) := by
  have hp := List.pairwise_iff_get.mp hd
  have nTMHNS_PAD : env.TSO_MAX_HDR_NUM_SEGS ≠ env.PAD :=
    Ne.symm (hp ⟨0, by simp [DpEnv.labels]⟩ ⟨6, by simp [DpEnv.labels]⟩ (by simp [Fin.lt_def]))
  have nTMHNS_PTS : env.TSO_MAX_HDR_NUM_SEGS ≠ env.PARTIAL_TSTAMP_SUB_NANO_BITS :=
    Ne.symm (hp ⟨1, by simp [DpEnv.labels]⟩ ⟨6, by simp [DpEnv.labels]⟩ (by simp [Fin.lt_def]))
  have nTMHNS_EUC : env.TSO_MAX_HDR_NUM_SEGS ≠ env.EVQ_UNSOL_CREDIT_SEQ_BITS :=
    Ne.symm (hp ⟨2, by simp [DpEnv.labels]⟩ ⟨6, by simp [DpEnv.labels]⟩ (by simp [Fin.lt_def]))
  have nTMHNS_NGS : env.TSO_MAX_HDR_NUM_SEGS ≠ env.NMMU_GROUP_SIZE :=
    Ne.symm (hp ⟨3, by simp [DpEnv.labels]⟩ ⟨6, by simp [DpEnv.labels]⟩ (by simp [Fin.lt_def]))
  have nTMHNS_RLC : env.TSO_MAX_HDR_NUM_SEGS ≠ env.RX_L4_CSUM_PROTOCOLS :=
    Ne.symm (hp ⟨4, by simp [DpEnv.labels]⟩ ⟨6, by simp [DpEnv.labels]⟩ (by simp [Fin.lt_def]))
  have nTMHNS_TMHL : env.TSO_MAX_HDR_NUM_SEGS ≠ env.TSO_MAX_HDR_LEN :=
    Ne.symm (hp ⟨5, by simp [DpEnv.labels]⟩ ⟨6, by simp [DpEnv.labels]⟩ (by simp [Fin.lt_def]))
  have nRXG_PAD : env.RXQ_SIZE_GRANULARITY ≠ env.PAD :=
    Ne.symm (hp ⟨0, by simp [DpEnv.labels]⟩ ⟨7, by simp [DpEnv.labels]⟩ (by simp [Fin.lt_def]))
  have nRXG_PTS : env.RXQ_SIZE_GRANULARITY ≠ env.PARTIAL_TSTAMP_SUB_NANO_BITS :=
    Ne.symm (hp ⟨1, by simp [DpEnv.labels]⟩ ⟨7, by simp [DpEnv.labels]⟩ (by simp [Fin.lt_def]))
  have nRXG_EUC : env.RXQ_SIZE_GRANULARITY ≠ env.EVQ_UNSOL_CREDIT_SEQ_BITS :=
    Ne.symm (hp ⟨2, by simp [DpEnv.labels]⟩ ⟨7, by simp [DpEnv.labels]⟩ (by simp [Fin.lt_def]))
  have nRXG_NGS : env.RXQ_SIZE_GRANULARITY ≠ env.NMMU_GROUP_SIZE :=
    Ne.symm (hp ⟨3, by simp [DpEnv.labels]⟩ ⟨7, by simp [DpEnv.labels]⟩ (by simp [Fin.lt_def]))
  have nRXG_RLC : env.RXQ_SIZE_GRANULARITY ≠ env.RX_L4_CSUM_PROTOCOLS :=
    Ne.symm (hp ⟨4, by simp [DpEnv.labels]⟩ ⟨7, by simp [DpEnv.labels]⟩ (by simp [Fin.lt_def]))
  have nRXG_TMHL : env.RXQ_SIZE_GRANULARITY ≠ env.TSO_MAX_HDR_LEN :=
    Ne.symm (hp ⟨5, by simp [DpEnv.labels]⟩ ⟨7, by simp [DpEnv.labels]⟩ (by simp [Fin.lt_def]))
  have nRXG_TMHNS : env.RXQ_SIZE_GRANULARITY ≠ env.TSO_MAX_HDR_NUM_SEGS :=
    Ne.symm (hp ⟨6, by simp [DpEnv.labels]⟩ ⟨7, by simp [DpEnv.labels]⟩ (by simp [Fin.lt_def]))
  have nTXG_PAD : env.TXQ_SIZE_GRANULARITY ≠ env.PAD :=
    Ne.symm (hp ⟨0, by simp [DpEnv.labels]⟩ ⟨8, by simp [DpEnv.labels]⟩ (by simp [Fin.lt_def]))
  have nTXG_PTS : env.TXQ_SIZE_GRANULARITY ≠ env.PARTIAL_TSTAMP_SUB_NANO_BITS :=
    Ne.symm (hp ⟨1, by simp [DpEnv.labels]⟩ ⟨8, by simp [DpEnv.labels]⟩ (by simp [Fin.lt_def]))
  have nTXG_EUC : env.TXQ_SIZE_GRANULARITY ≠ env.EVQ_UNSOL_CREDIT_SEQ_BITS :=
    Ne.symm (hp ⟨2, by simp [DpEnv.labels]⟩ ⟨8, by simp [DpEnv.labels]⟩ (by simp [Fin.lt_def]))
  have nTXG_NGS : env.TXQ_SIZE_GRANULARITY ≠ env.NMMU_GROUP_SIZE :=
    Ne.symm (hp ⟨3, by simp [DpEnv.labels]⟩ ⟨8, by simp [DpEnv.labels]⟩ (by simp [Fin.lt_def]))
  have nTXG_RLC : env.TXQ_SIZE_GRANULARITY ≠ env.RX_L4_CSUM_PROTOCOLS :=
    Ne.symm (hp ⟨4, by simp [DpEnv.labels]⟩ ⟨8, by simp [DpEnv.labels]⟩ (by simp [Fin.lt_def]))
  have nTXG_TMHL : env.TXQ_SIZE_GRANULARITY ≠ env.TSO_MAX_HDR_LEN :=
    Ne.symm (hp ⟨5, by simp [DpEnv.labels]⟩ ⟨8, by simp [DpEnv.labels]⟩ (by simp [Fin.lt_def]))
  have nTXG_TMHNS : env.TXQ_SIZE_GRANULARITY ≠ env.TSO_MAX_HDR_NUM_SEGS :=
    Ne.symm (hp ⟨6, by simp [DpEnv.labels]⟩ ⟨8, by simp [DpEnv.labels]⟩ (by simp [Fin.lt_def]))
  have nCMP_PAD : env.COMPAT ≠ env.PAD :=
    Ne.symm (hp ⟨0, by simp [DpEnv.labels]⟩ ⟨12, by simp [DpEnv.labels]⟩ (by simp [Fin.lt_def]))
  have nCMP_PTS : env.COMPAT ≠ env.PARTIAL_TSTAMP_SUB_NANO_BITS :=
    Ne.symm (hp ⟨1, by simp [DpEnv.labels]⟩ ⟨12, by simp [DpEnv.labels]⟩ (by simp [Fin.lt_def]))
  have nCMP_EUC : env.COMPAT ≠ env.EVQ_UNSOL_CREDIT_SEQ_BITS :=
    Ne.symm (hp ⟨2, by simp [DpEnv.labels]⟩ ⟨12, by simp [DpEnv.labels]⟩ (by simp [Fin.lt_def]))
  have nCMP_NGS : env.COMPAT ≠ env.NMMU_GROUP_SIZE :=
    Ne.symm (hp ⟨3, by simp [DpEnv.labels]⟩ ⟨12, by simp [DpEnv.labels]⟩ (by simp [Fin.lt_def]))
  have nCMP_RLC : env.COMPAT ≠ env.RX_L4_CSUM_PROTOCOLS :=
    Ne.symm (hp ⟨4, by simp [DpEnv.labels]⟩ ⟨12, by simp [DpEnv.labels]⟩ (by simp [Fin.lt_def]))
  have nCMP_TMHL : env.COMPAT ≠ env.TSO_MAX_HDR_LEN :=
    Ne.symm (hp ⟨5, by simp [DpEnv.labels]⟩ ⟨12, by simp [DpEnv.labels]⟩ (by simp [Fin.lt_def]))
  have nCMP_TMHNS : env.COMPAT ≠ env.TSO_MAX_HDR_NUM_SEGS :=
    Ne.symm (hp ⟨6, by simp [DpEnv.labels]⟩ ⟨12, by simp [DpEnv.labels]⟩ (by simp [Fin.lt_def]))
  have nCMP_RXG : env.COMPAT ≠ env.RXQ_SIZE_GRANULARITY :=
    Ne.symm (hp ⟨7, by simp [DpEnv.labels]⟩ ⟨12, by simp [DpEnv.labels]⟩ (by simp [Fin.lt_def]))
  have nCMP_TXG : env.COMPAT ≠ env.TXQ_SIZE_GRANULARITY :=
    Ne.symm (hp ⟨8, by simp [DpEnv.labels]⟩ ⟨12, by simp [DpEnv.labels]⟩ (by simp [Fin.lt_def]))
  have nCMP_TMPL : env.COMPAT ≠ env.TSO_MAX_PAYLOAD_LEN :=
    Ne.symm (hp ⟨9, by simp [DpEnv.labels]⟩ ⟨12, by simp [DpEnv.labels]⟩ (by simp [Fin.lt_def]))
  have nCMP_TMPNS : env.COMPAT ≠ env.TSO_MAX_PAYLOAD_NUM_SEGS :=
    Ne.symm (hp ⟨10, by simp [DpEnv.labels]⟩ ⟨12, by simp [DpEnv.labels]⟩ (by simp [Fin.lt_def]))
  have nCMP_TMNF : env.COMPAT ≠ env.TSO_MAX_NUM_FRAMES :=
    Ne.symm (hp ⟨11, by simp [DpEnv.labels]⟩ ⟨12, by simp [DpEnv.labels]⟩ (by simp [Fin.lt_def]))
  constructor
  · constructor
    · intro h
      unfold ef100_process_design_param at h
      by_cases c0 : reader.ty = env.PAD
      · rw [if_pos c0] at h; simp at h
      rw [if_neg c0] at h
      by_cases c1 : reader.ty = env.PARTIAL_TSTAMP_SUB_NANO_BITS
      · rw [if_pos c1] at h; simp at h
      rw [if_neg c1] at h
      by_cases c2 : reader.ty = env.EVQ_UNSOL_CREDIT_SEQ_BITS
      · rw [if_pos c2] at h; simp at h
      rw [if_neg c2] at h
      by_cases c3 : reader.ty = env.NMMU_GROUP_SIZE
      · rw [if_pos c3] at h; simp at h
      rw [if_neg c3] at h
      by_cases c4 : reader.ty = env.RX_L4_CSUM_PROTOCOLS
      · rw [if_pos c4] at h; simp at h
      rw [if_neg c4] at h
      by_cases c5 : reader.ty = env.TSO_MAX_HDR_LEN
      · rw [if_pos c5] at h; simp at h
      rw [if_neg c5] at h
      by_cases c6 : reader.ty = env.TSO_MAX_HDR_NUM_SEGS
      · rw [if_pos c6] at h
        by_cases v6 : reader.value = 0
        · exact Or.inr (Or.inl ⟨c6, v6⟩)
        · rw [if_neg v6] at h; simp at h
      rw [if_neg c6] at h
      by_cases c7 : reader.ty = env.RXQ_SIZE_GRANULARITY ∨
          reader.ty = env.TXQ_SIZE_GRANULARITY
      · rw [if_pos c7] at h
        by_cases v7 : reader.value = 0 ∨ reader.value > env.MIN_DMAQ_SIZE ∨
            env.MIN_DMAQ_SIZE % (reader.value % 2 ^ 32) ≠ 0
        · exact Or.inr (Or.inr ⟨c7, v7⟩)
        · rw [if_neg v7] at h; simp at h
      rw [if_neg c7] at h
      by_cases c8 : reader.ty = env.TSO_MAX_PAYLOAD_LEN
      · rw [if_pos c8] at h; simp at h
      rw [if_neg c8] at h
      by_cases c9 : reader.ty = env.TSO_MAX_PAYLOAD_NUM_SEGS
      · rw [if_pos c9] at h; simp at h
      rw [if_neg c9] at h
      by_cases c10 : reader.ty = env.TSO_MAX_NUM_FRAMES
      · rw [if_pos c10] at h; simp at h
      rw [if_neg c10] at h
      by_cases c11 : reader.ty = env.COMPAT
      · rw [if_pos c11] at h
        by_cases v11 : reader.value ≠ 0
        · exact Or.inl ⟨c11, v11⟩
        · rw [if_neg v11] at h; simp at h
      rw [if_neg c11] at h
      by_cases c12 : reader.ty = env.MEM2MEM_MAX_LEN
      · rw [if_pos c12] at h; simp at h
      rw [if_neg c12] at h
      by_cases c13 : reader.ty = env.EVQ_TIMER_TICK_NANOS
      · rw [if_pos c13] at h; simp at h
      rw [if_neg c13] at h
      by_cases c14 : reader.ty = env.NMMU_PAGE_SIZES
      · rw [if_pos c14] at h; simp at h
      rw [if_neg c14] at h
      by_cases c15 : reader.ty = env.VI_STRIDES
      · rw [if_pos c15] at h; simp at h
      rw [if_neg c15] at h
      simp at h
    · intro h
      simp only [ef100_process_design_param]
      rcases h with ⟨hty, hv⟩ | ⟨hty, hv⟩ | ⟨hty, hv⟩
      · rw [hty]
        rw [if_neg nCMP_PAD, if_neg nCMP_PTS, if_neg nCMP_EUC, if_neg nCMP_NGS, if_neg nCMP_RLC, if_neg nCMP_TMHL, if_neg nCMP_TMHNS,
            if_neg (not_or.mpr ⟨nCMP_RXG, nCMP_TXG⟩),
            if_neg nCMP_TMPL, if_neg nCMP_TMPNS, if_neg nCMP_TMNF,
            if_pos (Eq.refl env.COMPAT), if_pos hv]
      · rw [hty]
        rw [if_neg nTMHNS_PAD, if_neg nTMHNS_PTS, if_neg nTMHNS_EUC, if_neg nTMHNS_NGS, if_neg nTMHNS_RLC, if_neg nTMHNS_TMHL, if_pos (Eq.refl env.TSO_MAX_HDR_NUM_SEGS), if_pos hv]
      · rcases hty with hty | hty
        · rw [hty]
          rw [if_neg nRXG_PAD, if_neg nRXG_PTS, if_neg nRXG_EUC, if_neg nRXG_NGS, if_neg nRXG_RLC, if_neg nRXG_TMHL, if_neg nRXG_TMHNS,
              if_pos (Or.inl (Eq.refl env.RXQ_SIZE_GRANULARITY) :
                env.RXQ_SIZE_GRANULARITY = env.RXQ_SIZE_GRANULARITY ∨
                env.RXQ_SIZE_GRANULARITY = env.TXQ_SIZE_GRANULARITY),
              if_pos hv]
        · rw [hty]
          rw [if_neg nTXG_PAD, if_neg nTXG_PTS, if_neg nTXG_EUC, if_neg nTXG_NGS, if_neg nTXG_RLC, if_neg nTXG_TMHL, if_neg nTXG_TMHNS,
              if_pos (Or.inr (Eq.refl env.TXQ_SIZE_GRANULARITY) :
                env.TXQ_SIZE_GRANULARITY = env.RXQ_SIZE_GRANULARITY ∨
                env.TXQ_SIZE_GRANULARITY = env.TXQ_SIZE_GRANULARITY),
              if_pos hv]
  · intro hmem
    simp only [DpEnv.labels, List.mem_cons, List.not_mem_nil, or_false,
      not_or] at hmem
    obtain ⟨m0, m1, m2, m3, m4, m5, m6, m7, m8, m9, m10, m11, m12, m13, m14,
      m15, m16⟩ := hmem
    simp only [ef100_process_design_param]
    rw [if_neg m0, if_neg m1, if_neg m2, if_neg m3, if_neg m4, if_neg m5,
        if_neg m6, if_neg (not_or.mpr ⟨m7, m8⟩), if_neg m9, if_neg m10,
        if_neg m11, if_neg m12, if_neg m13, if_neg m14, if_neg m15,
        if_neg m16]

/-- Witness for C7: with label codes 0..16 (pairwise distinct), a COMPAT
triple (type 12) with value 1 yields -EOPNOTSUPP. -/
theorem process_design_param_unsupported_iff_witness :
    (ef100_process_design_param
        ⟨0, 1, 2, 3, 4, 5, 6, 7, 8, 9, 10, 11, 12, 13, 14, 15, 16, 512,
          65536, 0⟩
        ⟨0, 0, 0, 0, 0, 0⟩ ⟨TlvSM.TYPE, 1, 0, 12, 0⟩).2 = -95 :=
  (process_design_param_unsupported_iff _ _ _
      (show (DpEnv.labels
          ⟨0, 1, 2, 3, 4, 5, 6, 7, 8, 9, 10, 11, 12, 13, 14, 15, 16, 512,
            65536, 0⟩).Nodup by decide)).1.mpr
    (Or.inl ⟨rfl, by norm_num⟩)

/-- Scanning a concatenation runs the first part and, unless it failed,
continues from its final reader and nic state. -/
theorem checkBytes_append (env : DpEnv) (xs ys : List Nat) :
    ∀ (st : TlvState) (nic : DpNicData),
      checkBytes env st nic (xs ++ ys) =
        if (checkBytes env st nic xs).1 ≠ 0 then checkBytes env st nic xs
        else checkBytes env (checkBytes env st nic xs).2.1
          (checkBytes env st nic xs).2.2 ys := by
  induction xs with
  | nil => intro st nic; simp [checkBytes]
  | cons b bs ih =>
    intro st nic
    by_cases h1 : (ef100_tlv_feed st b).1 ≠ 0
    · simp [checkBytes, h1]
    · by_cases h2 : (ef100_tlv_feed st b).2.state = TlvSM.TYPE
      · by_cases h3 : (ef100_process_design_param env nic
            (ef100_tlv_feed st b).2).2 ≠ 0
        · simp [checkBytes, h1, h2, h3]
        · simp [checkBytes, h1, h2, h3, ih]
      · simp [checkBytes, h1, h2, ih]

/-- The dword-at-a-time register loop feeds exactly the bytes of the
dwords, least significant byte first. -/
theorem checkDwords_eq_checkBytes (env : DpEnv) (ds : List Nat) :
    ∀ (st : TlvState) (nic : DpNicData),
      checkDwords env st nic ds = checkBytes env st nic (bytesOfDwords ds) := by
  induction ds with
  | nil => intro st nic; simp [checkDwords, checkBytes, bytesOfDwords]
  | cons d ds ih =>
    intro st nic
    have hb : bytesOfDwords (d :: ds) = dwordBytes d ++ bytesOfDwords ds := rfl
    rw [hb, checkBytes_append]
    by_cases h : (checkBytes env st nic (dwordBytes d)).1 ≠ 0
    · simp [checkDwords, h]
    · simp [checkDwords, h, ih]

/-- C10: a design-parameter stream of dwords (declared total length a
multiple of 4) whose bytes decode without error but leave the reader
mid-triple - not back in the TYPE state - is accepted:
`ef100_check_design_params` returns 0, silently discarding the incomplete
trailing triple. -/
theorem check_design_params_truncated_ok (env : DpEnv) (nic : DpNicData)
    (dwords : List Nat) (st' : TlvState) (nic' : DpNicData)
    (hrun : checkBytes env tlvInit nic (bytesOfDwords dwords) = (0, st', nic'))
    (hmid : st'.state ≠ TlvSM.TYPE) :
    ef100_check_design_params env nic dwords = 0 := by
  unfold ef100_check_design_params
  rw [checkDwords_eq_checkBytes, hrun]

/-- Witness for C10: the dword 0x07350105 carries one complete
unrecognised triple (type 5, length 1, value 0x35) followed by a type byte
7 that leaves the reader in the LENGTH state; the scan accepts it. -/
theorem check_design_params_truncated_ok_witness :
    ef100_check_design_params
      ⟨100, 101, 102, 103, 104, 105, 106, 107, 108, 109, 110, 111, 112, 113,
        114, 115, 116, 512, 65536, 0⟩
      ⟨0, 0, 0, 0, 0, 0⟩ [0x07350105] = 0 :=
  check_design_params_truncated_ok _ _ _ ⟨TlvSM.LENGTH, 0, 0, 7, 1⟩
    ⟨0, 0, 0, 0, 0, 0⟩ (by decide) (by decide)

/-- Disjoint-range bitwise or is addition: or-ing `b` shifted past the
width of `a` adds it. -/
theorem lor_shiftLeft_eq_add {a b n : Nat} (h : a < 2 ^ n) :
    a ||| (b <<< n) = a + b * 2 ^ n := by
  have hh := Nat.mul_add_lt_is_or h b
  rw [Nat.shiftLeft_eq, Nat.lor_comm, Nat.mul_comm b (2 ^ n), ← hh]
  omega

/-- Masking with 0x7f is reduction mod 2^7. -/
theorem and_0x7f_eq_mod (t : Nat) : t &&& 0x7f = t % 2 ^ 7 := by
  simpa using Nat.and_pow_two_sub_one_eq_mod t 7

/-- A value below 2^7 has bit 7 clear. -/
theorem and_0x80_eq_zero {t : Nat} (h : t < 2 ^ 7) : t &&& 0x80 = 0 := by
  have h7 : t.testBit 7 = false := Nat.testBit_lt_two_pow h
  simpa [h7] using Nat.and_two_pow t 7

/-- One successful feed step of the collecting run. -/
theorem tlvRunAux_cons (s : TlvState) (b : Nat) (bs : List Nat)
    (h0 : (ef100_tlv_feed s b).1 = 0) :
    tlvRunAux s (b :: bs) =
      (tlvRunAux (ef100_tlv_feed s b).2 bs).map
        (fun p => (p.1,
          (if (ef100_tlv_feed s b).2.state = TlvSM.TYPE
           then [((ef100_tlv_feed s b).2.ty, (ef100_tlv_feed s b).2.value)]
           else []) ++ p.2)) := by
  simp only [tlvRunAux, h0]
  cases htl : tlvRunAux (ef100_tlv_feed s b).2 bs with
  | none => simp
  | some p => cases p; simp

/-- Running the VALUE phase over the remaining `vb` bytes accumulates them
little-endian above the `k` bytes already read, completes the triple and
emits the pair. -/
theorem tlvRunAux_value (vb : List Nat) :
    ∀ (k v0 ty : Nat), vb ≠ [] → (∀ b ∈ vb, b < 2 ^ 8) →
      k + vb.length ≤ 8 → v0 < 2 ^ (k * 8) →
      tlvRunAux ⟨TlvSM.VALUE, v0, k, ty, k + vb.length⟩ vb =
        some (⟨TlvSM.TYPE, v0 + leVal vb * 2 ^ (k * 8), k + vb.length, ty,
               k + vb.length⟩,
              [(ty, v0 + leVal vb * 2 ^ (k * 8))]) := by
  induction vb with
  | nil => intro k v0 ty hne _ _ _; exact absurd rfl hne
  | cons b vb ih =>
    intro k v0 ty _ hb hlen hv0
    have hblt : b < 2 ^ 8 := hb b (List.mem_cons_self b vb)
    have hpow : (2 : Nat) ^ ((k + 1) * 8) = 2 ^ (k * 8) * 2 ^ 8 := by
      rw [show (k + 1) * 8 = k * 8 + 8 by ring, pow_add]
    have hv1 : v0 + b * 2 ^ (k * 8) < 2 ^ ((k + 1) * 8) := by
      have h1 : b * 2 ^ (k * 8) ≤ (2 ^ 8 - 1) * 2 ^ (k * 8) :=
        Nat.mul_le_mul_right _ (by omega)
      rw [hpow]
      have hp : 0 < (2 : Nat) ^ (k * 8) := Nat.pos_pow_of_pos _ (by norm_num)
      omega
    have hlen' : k + (b :: vb).length = k + 1 + vb.length := by
      simp only [List.length_cons]; omega
    have hlt64 : v0 + b * 2 ^ (k * 8) < 2 ^ 64 := by
      refine lt_of_lt_of_le hv1 (Nat.pow_le_pow_right (by norm_num) ?_)
      simp only [List.length_cons] at hlen
      omega
    have hval : (v0 ||| (b <<< (k * 8))) % 2 ^ 64 = v0 + b * 2 ^ (k * 8) := by
      rw [lor_shiftLeft_eq_add hv0]
      exact Nat.mod_eq_of_lt hlt64
    rcases vb with _ | ⟨b2, vb2⟩
    · have hfeed : ef100_tlv_feed ⟨TlvSM.VALUE, v0, k, ty, k + 1⟩ b =
          (0, ⟨TlvSM.TYPE, v0 + b * 2 ^ (k * 8), k + 1, ty, k + 1⟩) := by
        simp only [ef100_tlv_feed, Nat.mod_eq_of_lt hblt]
        rw [hval]
        simp
      have h1 : k + ([b] : List Nat).length = k + 1 := rfl
      rw [h1, tlvRunAux_cons _ _ _ (by rw [hfeed]), hfeed]
      simp [tlvRunAux, leVal]
    · have hfeed : ef100_tlv_feed
          ⟨TlvSM.VALUE, v0, k, ty, k + (b :: b2 :: vb2).length⟩ b =
          (0, ⟨TlvSM.VALUE, v0 + b * 2 ^ (k * 8), k + 1, ty,
               k + 1 + (b2 :: vb2).length⟩) := by
        simp only [ef100_tlv_feed, Nat.mod_eq_of_lt hblt]
        rw [hval]
        rw [if_neg (by simp only [List.length_cons]; omega)]
        simp only [List.length_cons, Prod.mk.injEq, TlvState.mk.injEq,
          true_and]
        omega
      rw [tlvRunAux_cons _ _ _ (by rw [hfeed]), hfeed]
      have ihh := ih (k + 1) (v0 + b * 2 ^ (k * 8)) ty (by simp)
        (fun x hx => hb x (List.mem_cons_of_mem b hx))
        (by simp only [List.length_cons] at hlen ⊢; omega) hv1
      rw [ihh]
      have hvfin : v0 + b * 2 ^ (k * 8) + leVal (b2 :: vb2) * 2 ^ ((k + 1) * 8) =
          v0 + leVal (b :: b2 :: vb2) * 2 ^ (k * 8) := by
        have hl : leVal (b :: b2 :: vb2) = b + 2 ^ 8 * leVal (b2 :: vb2) := rfl
        rw [hl, hpow]; ring
      simp only [Option.map_some, if_neg (by simp : ¬(TlvSM.VALUE = TlvSM.TYPE))]
      rw [hlen']
      simp [hvfin]

/-- Consuming the length byte and the value bytes from the LENGTH state
completes the triple (immediately for a zero length) and emits the pair. -/
theorem tlvRunAux_len_val (t sl : Nat) (vb : List Nat) (hlen : vb.length ≤ 8)
    (hbs : ∀ b ∈ vb, b < 2 ^ 8) :
    tlvRunAux ⟨TlvSM.LENGTH, 0, 0, t, sl⟩ (vb.length :: vb) =
      some (⟨TlvSM.TYPE, leVal vb, vb.length, t, vb.length⟩,
            [(t, leVal vb)]) := by
  have hfeed2 : ef100_tlv_feed ⟨TlvSM.LENGTH, 0, 0, t, sl⟩ vb.length =
      (0, ⟨if vb.length ≠ 0 then TlvSM.VALUE else TlvSM.TYPE, 0, 0, t,
           vb.length⟩) := by
    simp only [ef100_tlv_feed]
    rw [Nat.mod_eq_of_lt (lt_of_le_of_lt hlen (by norm_num))]
    rw [if_neg (by omega)]
  rcases vb with _ | ⟨b1, vbr⟩
  · rw [tlvRunAux_cons _ _ _ (by rw [hfeed2]), hfeed2]
    simp [tlvRunAux, leVal]
  · rw [tlvRunAux_cons _ _ _ (by rw [hfeed2]), hfeed2]
    have hv := tlvRunAux_value (b1 :: vbr) 0 0 t (by simp) hbs
      (by simpa using hlen) (by norm_num)
    simp only [Nat.zero_add, Nat.zero_mul, pow_zero, mul_one] at hv
    simp only [List.length_cons] at hv ⊢
    simp [hv]

/-- Feeding the encoding of one well-formed triple from any reader in the
TYPE state decodes and emits exactly that triple. -/
theorem tlvRunAux_triple (tr : TlvTriple) (s : TlvState)
    (hs : s.state = TlvSM.TYPE) (hwf : TlvWF tr) :
    tlvRunAux s (encodeTriple tr) =
      some (⟨TlvSM.TYPE, leVal tr.vbytes, tr.vbytes.length, tr.t,
             tr.vbytes.length⟩,
            [(tr.t, leVal tr.vbytes)]) := by
  obtain ⟨t, vb⟩ := tr
  obtain ⟨ht, hlen, hbs⟩ := hwf
  obtain ⟨sst, sv, svo, sty, sl⟩ := s
  simp only at hs ht hlen hbs
  subst hs
  rcases Nat.lt_or_ge t 0x80 with ht1 | ht1
  · have ht7 : t < 2 ^ 7 := by simpa using ht1
    have ht8 : t < 2 ^ 8 := by
      have : (2 : Nat) ^ 7 < 2 ^ 8 := by norm_num
      omega
    have hfeed1 : ef100_tlv_feed ⟨TlvSM.TYPE, sv, svo, sty, sl⟩ t =
        (0, ⟨TlvSM.LENGTH, 0, 0, t, sl⟩) := by
      simp only [ef100_tlv_feed, Nat.mod_eq_of_lt ht8]
      rw [and_0x7f_eq_mod, Nat.mod_eq_of_lt ht7, and_0x80_eq_zero ht7]
      simp
    have henc : encodeTriple ⟨t, vb⟩ = t :: vb.length :: vb := by
      simp [encodeTriple, encodeTy, ht1]
    rw [henc, tlvRunAux_cons _ _ _ (by rw [hfeed1]), hfeed1]
    rw [tlvRunAux_len_val t sl vb hlen hbs]
    simp
  · have hm7 : t &&& 0x7f = t % 2 ^ 7 := and_0x7f_eq_mod t
    have hmlt : t % 2 ^ 7 < 2 ^ 7 := Nat.mod_lt _ (by norm_num)
    have hb1lt : ((t &&& 0x7f) ||| 0x80) < 2 ^ 8 := by
      rw [hm7]
      exact Nat.or_lt_two_pow (lt_trans hmlt (by norm_num)) (by norm_num)
    have e1 : ((t &&& 0x7f) ||| 0x80) &&& 0x7f = t % 2 ^ 7 := by
      rw [Nat.and_distrib_right, hm7, and_0x7f_eq_mod,
        Nat.mod_eq_of_lt hmlt]
      rw [show (0x80 : Nat) &&& 0x7f = 0 from by decide, Nat.or_zero]
    have e2 : ((t &&& 0x7f) ||| 0x80) &&& 0x80 = 0x80 := by
      rw [Nat.and_distrib_right, hm7, and_0x80_eq_zero hmlt]
      decide
    have hfeed1 : ef100_tlv_feed ⟨TlvSM.TYPE, sv, svo, sty, sl⟩
        ((t &&& 0x7f) ||| 0x80) =
        (0, ⟨TlvSM.TYPE_CONT, 0, 0, t % 2 ^ 7, sl⟩) := by
      simp only [ef100_tlv_feed, Nat.mod_eq_of_lt hb1lt]
      rw [e1, e2]
      simp
    have hb2lt : t >>> 7 < 2 ^ 8 := by
      rw [Nat.shiftRight_eq_div_pow]
      exact Nat.div_lt_of_lt_mul (by simpa using ht)
    have hfeed2 : ef100_tlv_feed ⟨TlvSM.TYPE_CONT, 0, 0, t % 2 ^ 7, sl⟩
        (t >>> 7) =
        (0, ⟨TlvSM.LENGTH, 0, 0, t, sl⟩) := by
      simp only [ef100_tlv_feed, Nat.mod_eq_of_lt hb2lt]
      rw [lor_shiftLeft_eq_add hmlt, Nat.shiftRight_eq_div_pow,
        Nat.mod_add_div']
      rw [Nat.mod_eq_of_lt (lt_of_lt_of_le ht (by norm_num))]
    have henc : encodeTriple ⟨t, vb⟩ =
        ((t &&& 0x7f) ||| 0x80) :: (t >>> 7) :: vb.length :: vb := by
      simp only [encodeTriple, encodeTy]
      rw [if_neg (by omega)]
      simp
    rw [henc, tlvRunAux_cons _ _ _ (by rw [hfeed1]), hfeed1]
    rw [tlvRunAux_cons _ _ _ (by rw [hfeed2]), hfeed2]
    rw [tlvRunAux_len_val t sl vb hlen hbs]
    simp

/-- A successful run splits over concatenation: the second part continues
from the first part's final reader, and the emitted pairs concatenate. -/
theorem tlvRunAux_append (xs : List Nat) :
    ∀ (ys : List Nat) (s s1 : TlvState) (out1 : List (Nat × Nat))
      (s2 : TlvState) (out2 : List (Nat × Nat)),
      tlvRunAux s xs = some (s1, out1) →
      tlvRunAux s1 ys = some (s2, out2) →
      tlvRunAux s (xs ++ ys) = some (s2, out1 ++ out2) := by
  induction xs with
  | nil =>
    intro ys s s1 out1 s2 out2 h1 h2
    simp only [tlvRunAux, Option.some.injEq, Prod.mk.injEq] at h1
    obtain ⟨rfl, rfl⟩ := h1
    simpa using h2
  | cons b bs ih =>
    intro ys s s1 out1 s2 out2 h1 h2
    by_cases h0 : (ef100_tlv_feed s b).1 = 0
    · rw [tlvRunAux_cons _ _ _ h0] at h1
      cases hbs : tlvRunAux (ef100_tlv_feed s b).2 bs with
      | none => rw [hbs] at h1; simp at h1
      | some p =>
        obtain ⟨p1, p2⟩ := p
        rw [hbs] at h1
        simp only [Option.map_some', Option.some.injEq, Prod.mk.injEq] at h1
        obtain ⟨rfl, rfl⟩ := h1
        rw [List.cons_append, tlvRunAux_cons _ _ _ h0,
          ih ys _ p1 p2 s2 out2 hbs h2]
        simp
    · simp only [tlvRunAux] at h1
      rw [if_pos h0] at h1
      simp at h1

/-- Feeding the encoding of any well-formed triple sequence from a reader
in the TYPE state emits exactly the encoded pairs and ends in TYPE. -/
theorem tlvRunAux_encodeList (ts : List TlvTriple) :
    ∀ s : TlvState, s.state = TlvSM.TYPE → (∀ tr ∈ ts, TlvWF tr) →
      ∃ sf, tlvRunAux s (encodeTlvList ts) =
          some (sf, ts.map fun tr => (tr.t, leVal tr.vbytes)) ∧
        sf.state = TlvSM.TYPE := by
  induction ts with
  | nil =>
    intro s hs _
    exact ⟨s, by simp [encodeTlvList, tlvRunAux], hs⟩
  | cons tr ts ih =>
    intro s hs hwf
    have h1 := tlvRunAux_triple tr s hs (hwf tr (by simp))
    obtain ⟨sf, h2, hsf⟩ := ih
      ⟨TlvSM.TYPE, leVal tr.vbytes, tr.vbytes.length, tr.t, tr.vbytes.length⟩
      rfl (fun x hx => hwf x (List.mem_cons_of_mem tr hx))
    refine ⟨sf, ?_, hsf⟩
    have happ := tlvRunAux_append (encodeTriple tr) (encodeTlvList ts) s _ _
      _ _ h1 h2
    have henc : encodeTlvList (tr :: ts) =
        encodeTriple tr ++ encodeTlvList ts := rfl
    rw [henc, happ]
    simp

/-- C1: the TLV decoder is a right inverse of encoding - feeding the byte
encoding of any sequence of well-formed triples (each length at most 8)
from the TYPE state emits exactly the encoded (type, value) pairs, with
zero-length triples yielding value 0; in particular the bytes
[0x05, 0x02, 0x34, 0x12] emit exactly (5, 0x1234), and the bytes
[0x85, 0x01, 0x00] emit exactly (0x85, 0) with no byte consumed in the
VALUE state. -/
theorem tlv_decoder_roundtrip :
    (∀ ts : List TlvTriple, (∀ tr ∈ ts, TlvWF tr) →
      ∃ sf, tlvRunAux tlvInit (encodeTlvList ts) =
          some (sf, ts.map fun tr => (tr.t, leVal tr.vbytes)) ∧
        sf.state = TlvSM.TYPE) ∧
    (tlvRunAux tlvInit [0x05, 0x02, 0x34, 0x12]).map Prod.snd =
      some [(5, 0x1234)] ∧
    (tlvRunAux tlvInit [0x85, 0x01, 0x00]).map Prod.snd =
      some [(0x85, 0)] ∧
    tlvPreStates tlvInit [0x85, 0x01, 0x00] =
      [TlvSM.TYPE, TlvSM.TYPE_CONT, TlvSM.LENGTH] :=
  ⟨fun ts h => tlvRunAux_encodeList ts tlvInit rfl h,
   by decide, by decide, by decide⟩

/-- Witness for C1: the triple sequence [(0x85, bytes [0x34, 0x12])]. -/
theorem tlv_decoder_roundtrip_witness :
    ∃ sf, tlvRunAux tlvInit (encodeTlvList [⟨0x85, [0x34, 0x12]⟩]) =
        some (sf, [(0x85, 0x1234)]) ∧ sf.state = TlvSM.TYPE := by
  have h := tlv_decoder_roundtrip.1 [⟨0x85, [0x34, 0x12]⟩]
    (by
      intro tr htr
      simp only [List.mem_singleton] at htr
      subst htr
      exact ⟨by norm_num, by norm_num, by decide⟩)
  simpa [leVal] using h

/-- The dispatch loop never lets the spent count exceed the quota, as long
as the MCDI sub-handler reports at most the quota it was given. -/
theorem evLoop_spent_le (ring : Nat → EvEntry) (mcdiRc : EvEntry → Int → Int)
    (mask : Nat) (quota : Int)
    (hm : ∀ e q, 0 < q → mcdiRc e q ≤ q) :
    ∀ (fuel : Nat) (spent : Int) (ptr : Nat) (ph : Bool) (c : Nat)
      (r : Int × Nat × Bool × Nat),
      spent ≤ quota →
      evLoop ring mcdiRc mask quota fuel spent ptr ph c = some r →
      r.1 ≤ quota := by
  intro fuel
  induction fuel with
  | zero => intro spent ptr ph c r _ h; simp [evLoop] at h
  | succ n ih =>
    intro spent ptr ph c r hsp h
    simp only [evLoop] at h
    split at h
    · split at h
      · cases h; exact hsp
      · refine ih _ _ _ _ _ ?_ h
        rename_i hq hph
        cases he : (ring (ptr &&& mask)).ty
        case RX_PKTS => simp only [he]; omega
        case MCDI =>
          simp only [he, ef100_ev_mcdi]
          have hb := hm (ring (ptr &&& mask)) (quota - spent) (by omega)
          split_ifs <;> omega
        case TX_COMPLETION => simp only [he]; exact hsp
        case DRIVER => simp only [he]; exact hsp
        case other c' => simp only [he]; exact hsp
    · cases h; exact hsp

/-- Loop invariant of the dispatch loop: each iteration advances the
pointer by one (mod 2^32), keeps the local phase equal to `expPhase` of
the number of dispatched entries, and dispatches only entries whose phase
bit matches the expected phase at their position. -/
theorem evLoop_inv (ring : Nat → EvEntry) (mcdiRc : EvEntry → Int → Int)
    (mask : Nat) (quota : Int) (p0 : Nat) (ph0 : Bool) :
    ∀ (fuel : Nat) (spent : Int) (c : Nat) (r : Int × Nat × Bool × Nat),
      evLoop ring mcdiRc mask quota fuel spent ((p0 + c) % 2 ^ 32)
        (expPhase mask p0 ph0 c) c = some r →
      c ≤ r.2.2.2 ∧ r.2.1 = (p0 + r.2.2.2) % 2 ^ 32 ∧
      r.2.2.1 = expPhase mask p0 ph0 r.2.2.2 ∧
      ∀ j, c ≤ j → j < r.2.2.2 →
        (ring (((p0 + j) % 2 ^ 32) &&& mask)).phase =
          expPhase mask p0 ph0 j := by
  intro fuel
  induction fuel with
  | zero => intro spent c r h; simp [evLoop] at h
  | succ n ih =>
    intro spent c r h
    simp only [evLoop] at h
    split at h
    · split at h
      · cases h
        dsimp only
        exact ⟨le_refl c, rfl, rfl, fun j hcj hjc => absurd hjc (by omega)⟩
      · rename_i hq hph
        rw [show ((p0 + c) % 2 ^ 32 + 1) % 2 ^ 32 = (p0 + (c + 1)) % 2 ^ 32
          by omega] at h
        rw [show (if ((p0 + (c + 1)) % 2 ^ 32) &&& mask == 0
              then !(expPhase mask p0 ph0 c) else expPhase mask p0 ph0 c) =
            expPhase mask p0 ph0 (c + 1) from rfl] at h
        obtain ⟨h1, h2, h3, h4⟩ := ih _ _ _ h
        refine ⟨by omega, h2, h3, ?_⟩
        intro j hcj hjr
        rcases Nat.eq_or_lt_of_le hcj with rfl | hlt
        · exact not_ne_iff.mp hph
        · exact h4 j hlt hjr
    · cases h
      dsimp only
      exact ⟨le_refl c, rfl, rfl, fun j hcj hjc => absurd hjc (by omega)⟩

/-- C2: an event-processing pass never spends more than the quota
(RX events cost 1, MCDI events cost the sub-handler's reported work,
everything else costs 0, given that the sub-handler respects the quota it
is offered), and every dispatched ring entry carries the phase bit the
channel expected at that position - the loop stops at the first
mismatch. -/
theorem ev_process_quota_and_phase_safe (ring : Nat → EvEntry)
    (mcdiRc : EvEntry → Int → Int) (ch : EvChannel) (quota : Int)
    (fuel : Nat) (spent : Int) (ch' : EvChannel) (consumed : Nat)
    (hp0 : ch.eventq_read_ptr < 2 ^ 32) (hq : 0 ≤ quota)
    (hm : ∀ e q, 0 < q → mcdiRc e q ≤ q)
    (hrun : ef100_ev_process ring mcdiRc ch quota fuel =
      some (spent, ch', consumed)) :
    spent ≤ quota ∧
    ∀ j < consumed,
      (ring (((ch.eventq_read_ptr + j) % 2 ^ 32) &&& ch.eventq_mask)).phase =
        expPhase ch.eventq_mask ch.eventq_read_ptr ch.evq_phase j := by
  unfold ef100_ev_process at hrun
  by_cases he : ch.enabled
  · rw [if_neg (by simp [he])] at hrun
    cases hl : evLoop ring mcdiRc ch.eventq_mask quota fuel 0
        ch.eventq_read_ptr ch.evq_phase 0 with
    | none => rw [hl] at hrun; simp at hrun
    | some r =>
      obtain ⟨sp, ptr, ph, cons⟩ := r
      rw [hl] at hrun
      simp only [Option.some.injEq, Prod.mk.injEq] at hrun
      obtain ⟨rfl, hch', rfl⟩ := hrun
      have hl' : evLoop ring mcdiRc ch.eventq_mask quota fuel 0
          ((ch.eventq_read_ptr + 0) % 2 ^ 32)
          (expPhase ch.eventq_mask ch.eventq_read_ptr ch.evq_phase 0) 0 =
          some (sp, ptr, ph, cons) := by
        rw [show (ch.eventq_read_ptr + 0) % 2 ^ 32 = ch.eventq_read_ptr
          by omega]
        exact hl
      have hle := evLoop_spent_le ring mcdiRc ch.eventq_mask quota hm fuel
        0 ch.eventq_read_ptr ch.evq_phase 0 _ hq hl
      have hinv := evLoop_inv ring mcdiRc ch.eventq_mask quota
        ch.eventq_read_ptr ch.evq_phase fuel 0 0 _ hl'
      exact ⟨hle, fun j hj => hinv.2.2.2 j (Nat.zero_le j) hj⟩
  · rw [if_pos (by simp [he])] at hrun
    simp only [Option.some.injEq, Prod.mk.injEq] at hrun
    obtain ⟨rfl, _, rfl⟩ := hrun
    exact ⟨hq, fun j hj => absurd hj (by omega)⟩

/-- Witness for C2: the scenario-C channel (mask 3, four ready RX entries,
quota 10) spends 4 ≤ 10 and its third dispatched entry matched the
expected phase. -/
theorem ev_process_quota_and_phase_safe_witness :
    (4 : Int) ≤ 10 ∧
    ((fun _ => (⟨false, EvType.RX_PKTS⟩ : EvEntry))
        (((0 + 2) % 2 ^ 32) &&& 3)).phase = expPhase 3 0 false 2 := by
  have h := ev_process_quota_and_phase_safe
    (fun _ => (⟨false, EvType.RX_PKTS⟩ : EvEntry)) (fun _ _ => 0)
    ⟨true, 0, 3, false⟩ 10 16 4 ⟨true, 4, 3, true⟩ 4 (by norm_num)
    (by norm_num) (fun e q hq => le_of_lt hq) (by decide)
  exact ⟨h.1, h.2 2 (by norm_num)⟩

/-- Closed form of the expected phase: the starting phase xor-ed with the
parity of the number of ring-size multiples crossed by the first `j`
pointer increments.  Needs the mask to be a ring mask 2^k - 1 with k ≤ 32
so that the u32 pointer wrap is transparent to the masked test. -/
theorem expPhase_eq_xor_parity (mask p0 : Nat) (ph0 : Bool) (k : Nat)
    (hk : k ≤ 32) (hmask : mask = 2 ^ k - 1) :
    ∀ j, expPhase mask p0 ph0 j =
      xor ph0 (decide (Odd ((p0 + j) / 2 ^ k - p0 / 2 ^ k))) := by
  intro j
  induction j with
  | zero => simp [expPhase, Nat.odd_iff]
  | succ j ih =>
    have hcond : (((p0 + (j + 1)) % 2 ^ 32) &&& mask == 0) =
        decide (2 ^ k ∣ (p0 + (j + 1))) := by
      rw [hmask, Nat.and_pow_two_sub_one_eq_mod,
        Nat.mod_mod_of_dvd _ (pow_dvd_pow 2 hk)]
      by_cases hd : 2 ^ k ∣ (p0 + (j + 1))
      · have h0 : (p0 + (j + 1)) % 2 ^ k = 0 :=
          Nat.dvd_iff_mod_eq_zero.mp hd
        simp [h0, hd]
      · have h0 : (p0 + (j + 1)) % 2 ^ k ≠ 0 := fun hc =>
          hd (Nat.dvd_iff_mod_eq_zero.mpr hc)
        simp [h0, hd]
    simp only [expPhase]
    rw [hcond, ih]
    by_cases hd : 2 ^ k ∣ (p0 + (j + 1))
    · have hsucc : (p0 + (j + 1)) / 2 ^ k = (p0 + j) / 2 ^ k + 1 := by
        rw [show p0 + (j + 1) = (p0 + j) + 1 by ring, Nat.succ_div,
          if_pos (by rw [show (p0 + j) + 1 = p0 + (j + 1) by ring]; exact hd)]
      have hmono : p0 / 2 ^ k ≤ (p0 + j) / 2 ^ k :=
        Nat.div_le_div_right (Nat.le_add_right _ _)
      rw [if_pos (by simp [hd]), hsucc,
        show (p0 + j) / 2 ^ k + 1 - p0 / 2 ^ k =
          ((p0 + j) / 2 ^ k - p0 / 2 ^ k) + 1 by omega]
      by_cases ho : Odd ((p0 + j) / 2 ^ k - p0 / 2 ^ k)
      · simp [ho, Nat.odd_add_one]
      · simp [ho, Nat.odd_add_one]
    · have hsucc : (p0 + (j + 1)) / 2 ^ k = (p0 + j) / 2 ^ k := by
        rw [show p0 + (j + 1) = (p0 + j) + 1 by ring, Nat.succ_div,
          if_neg (by rw [show (p0 + j) + 1 = p0 + (j + 1) by ring]; exact hd)]
        simp
      rw [if_neg (by simp [hd]), hsucc]

/-- C3: when the ring mask is 2^k - 1 (k ≤ 32), a processing pass that
dispatches exactly one full ring of entries leaves the stored phase bit
toggled, and one that dispatches exactly two full rings leaves it at its
starting value; concretely, mask 3, read pointer 0, phase 0, four ready RX
entries and quota 10 give work_done 4, read pointer 4 and stored phase
1. -/
theorem ev_process_phase_wrap :
    (∀ (ring : Nat → EvEntry) (mcdiRc : EvEntry → Int → Int)
       (ch : EvChannel) (quota : Int) (fuel k : Nat) (spent : Int)
       (ch' : EvChannel) (consumed : Nat),
       ch.eventq_mask = 2 ^ k - 1 → k ≤ 32 → ch.eventq_read_ptr < 2 ^ 32 →
       ef100_ev_process ring mcdiRc ch quota fuel =
         some (spent, ch', consumed) →
       (consumed = 2 ^ k → ch'.evq_phase = !ch.evq_phase) ∧
       (consumed = 2 * 2 ^ k → ch'.evq_phase = ch.evq_phase)) ∧
    ef100_ev_process (fun _ => ⟨false, EvType.RX_PKTS⟩) (fun _ _ => 0)
        ⟨true, 0, 3, false⟩ 10 16 =
      some (4, ⟨true, 4, 3, true⟩, 4) := by
  constructor
  · intro ring mcdiRc ch quota fuel k spent ch' consumed hmask hk hp0 hrun
    have hkpos : 0 < (2 : Nat) ^ k := Nat.pos_pow_of_pos _ (by norm_num)
    unfold ef100_ev_process at hrun
    by_cases he : ch.enabled
    · rw [if_neg (by simp [he])] at hrun
      cases hl : evLoop ring mcdiRc ch.eventq_mask quota fuel 0
          ch.eventq_read_ptr ch.evq_phase 0 with
      | none => rw [hl] at hrun; simp at hrun
      | some r =>
        obtain ⟨sp, ptr, ph, cons⟩ := r
        rw [hl] at hrun
        simp only [Option.some.injEq, Prod.mk.injEq] at hrun
        obtain ⟨rfl, hch', rfl⟩ := hrun
        have hl' : evLoop ring mcdiRc ch.eventq_mask quota fuel 0
            ((ch.eventq_read_ptr + 0) % 2 ^ 32)
            (expPhase ch.eventq_mask ch.eventq_read_ptr ch.evq_phase 0) 0 =
            some (sp, ptr, ph, cons) := by
          rw [show (ch.eventq_read_ptr + 0) % 2 ^ 32 = ch.eventq_read_ptr
            by omega]
          exact hl
        have hinv := evLoop_inv ring mcdiRc ch.eventq_mask quota
          ch.eventq_read_ptr ch.evq_phase fuel 0 0 _ hl'
        dsimp only at hinv
        have hph : ch'.evq_phase = ph := by
          rw [← hch']
          cases hb : ph <;> cases hph2 : ch.evq_phase <;> simp_all
        rw [hph, hinv.2.2.1,
          expPhase_eq_xor_parity ch.eventq_mask ch.eventq_read_ptr
            ch.evq_phase k hk hmask]
        constructor
        · intro hcons
          rw [hcons, Nat.add_div_right _ hkpos,
            show ch.eventq_read_ptr / 2 ^ k + 1 -
                ch.eventq_read_ptr / 2 ^ k = 1 by omega]
          cases hph0 : ch.evq_phase <;> simp [Nat.odd_iff]
        · intro hcons
          rw [hcons,
            show ch.eventq_read_ptr + 2 * 2 ^ k =
              ch.eventq_read_ptr + 2 ^ k + 2 ^ k by ring,
            Nat.add_div_right _ hkpos, Nat.add_div_right _ hkpos,
            show ch.eventq_read_ptr / 2 ^ k + 1 + 1 -
                ch.eventq_read_ptr / 2 ^ k = 2 by omega]
          cases hph0 : ch.evq_phase <;> simp [Nat.odd_iff]
    · rw [if_pos (by simp [he])] at hrun
      simp only [Option.some.injEq, Prod.mk.injEq] at hrun
      obtain ⟨_, _, hcons⟩ := hrun
      constructor
      · intro hc; rw [← hcons] at hc; omega
      · intro hc; rw [← hcons] at hc; omega
  · decide

/-- Witness for C3: scenario C - after the four-entry full wrap the stored
phase bit equals the negation of its start. -/
theorem ev_process_phase_wrap_witness :
    (⟨true, 4, 3, true⟩ : EvChannel).evq_phase =
      !(⟨true, 0, 3, false⟩ : EvChannel).evq_phase :=
  (ev_process_phase_wrap.1 (fun _ => ⟨false, EvType.RX_PKTS⟩) (fun _ _ => 0)
      ⟨true, 0, 3, false⟩ 10 16 2 4 ⟨true, 4, 3, true⟩ 4 (by norm_num)
      (by norm_num) (by norm_num) (by decide)).1 (by norm_num)

end Ef100
